import Mathlib

/-!
Verification of the rendering core of the resvg SVG rendering backends
(resvg-skia / resvg-qt render.rs, resvg-skia layers.rs, resvg-cairo clip.rs).

The Rust sources are shallowly embedded: machine floats (`f64`) are modelled
by exact rationals `ℚ`, reference-counted pool state (`Rc`/`RefCell`) by an
explicit vector-plus-counter record with take/put-back lease passing, and
drawing side effects on a surface by an event log attached to the surface.
External collaborators (the skia/Qt/cairo 2D libraries, the usvg tree
library and the sibling path/filter/mask modules) are modelled by their
observable effects: an external draw call appends one event to the target
surface's log and returns the value documented in the source.
-/

namespace Resvg

/-- Affine 2x3 transform (a b c d e f), as in `usvg::Transform`.
Coefficients are exact rationals standing in for `f64`. -/
structure Transform where
  a : ℚ
  b : ℚ
  c : ℚ
  d : ℚ
  e : ℚ
  f : ℚ
deriving DecidableEq, Repr

/-- The identity transform. -/
def Transform.identity : Transform := ⟨1, 0, 0, 1, 0, 0⟩

/-- Composition of affine transforms: `(m.mul n)` first applies `n`,
then `m` (matrix product with columns (a b), (c d), (e f)). -/
def Transform.mul (m n : Transform) : Transform :=
  ⟨m.a * n.a + m.c * n.b,
   m.b * n.a + m.d * n.b,
   m.a * n.c + m.c * n.d,
   m.b * n.c + m.d * n.d,
   m.a * n.e + m.c * n.f + m.e,
   m.b * n.e + m.d * n.f + m.f⟩

/-- Apply an affine transform to a point. -/
def Transform.apply (t : Transform) (x y : ℚ) : ℚ × ℚ :=
  (t.a * x + t.c * y + t.e, t.b * x + t.d * y + t.f)

/-- Modelled from the spec: stand-in for `f64::MAX`, the coordinate used by
the `Rect::new_bbox()` sentinel (usvg geometric helpers are external to the
sources under verification). -/
def F64_MAX : ℚ := 2 ^ 1023

/-- Axis-aligned rectangle, as in `usvg::Rect`. -/
structure Rect where
  x : ℚ
  y : ℚ
  w : ℚ
  h : ℚ
deriving DecidableEq, Repr

/-- Modelled from the spec: `usvg::Rect::new_bbox()`, the "no area
accumulated yet" sentinel; the render loop's comment says its x/y are
`f64::MAX` (extents are the defaults 1, 1). -/
def Rect.new_bbox : Rect := ⟨F64_MAX, F64_MAX, 1, 1⟩

/-- Modelled from the spec: `Rect::expand` unions the accumulated bbox with
a new one; expanding the sentinel yields the new rectangle. -/
def Rect.expand (s r : Rect) : Rect :=
  if s = Rect.new_bbox then r
  else
    let x1 := min s.x r.x
    let y1 := min s.y r.y
    let x2 := max (s.x + s.w) (r.x + r.w)
    let y2 := max (s.y + s.h) (r.y + r.h)
    ⟨x1, y1, x2 - x1, y2 - y1⟩

/-- Modelled from the spec: `Rect::fuzzy_ne`, an approximate `f64`
inequality; over the exact rational model it is exact inequality. -/
def Rect.fuzzy_ne (s r : Rect) : Bool := decide (s ≠ r)

/-- Modelled from the spec: `Rect::transform(T)` maps the rectangle through
the affine `T` (bbox of the four mapped corners) and returns `none` when the
result is degenerate. -/
def Rect.rtransform (r : Rect) (t : Transform) : Option Rect :=
  let p1 := t.apply r.x r.y
  let p2 := t.apply (r.x + r.w) r.y
  let p3 := t.apply r.x (r.y + r.h)
  let p4 := t.apply (r.x + r.w) (r.y + r.h)
  let x1 := min (min p1.1 p2.1) (min p3.1 p4.1)
  let y1 := min (min p1.2 p2.2) (min p3.2 p4.2)
  let x2 := max (max p1.1 p2.1) (max p3.1 p4.1)
  let y2 := max (max p1.2 p2.2) (max p3.2 p4.2)
  if 0 < x2 - x1 ∧ 0 < y2 - y1 then some ⟨x1, y1, x2 - x1, y2 - y1⟩ else none

/-- Modelled from the spec: `usvg::Transform::from_bbox`, the
bbox-to-userspace transform for `ObjectBoundingBox` units. -/
def Transform.from_bbox (r : Rect) : Transform := ⟨r.w, 0, 0, r.h, r.x, r.y⟩

/-- Positive integer image dimensions, as in `usvg::ScreenSize`. -/
structure ScreenSize where
  width : Nat
  height : Nat
deriving DecidableEq, Repr

/-- Clip-path coordinate units, as in `usvg::Units`. -/
inductive CPUnits where
  | userSpaceOnUse
  | objectBoundingBox
deriving DecidableEq, Repr

/-- Group opacity, as in `usvg::Opacity` (an `f64` in [0,1], modelled
exactly by a rational). -/
structure Opacity where
  value : ℚ
deriving DecidableEq, Repr

/-- `Opacity::is_default`: the default opacity is 1.0. -/
def Opacity.is_default (o : Opacity) : Bool := decide (o.value = 1)

/-- Group attributes used by the rendering core, as in `usvg::Group`
(the `filter_fill`/`filter_stroke` paints feed only the external
paint-server and are not modelled). -/
structure Group where
  clip_path : Option String
  mask : Option String
  filter : Option String
  opacity : Opacity
deriving DecidableEq, Repr

/-- Clip-path definition, as in `usvg::ClipPath`. -/
structure ClipPathDef where
  units : CPUnits
  transform : Transform
  clip_path : Option String
deriving DecidableEq, Repr

/-- Node kinds, as in `usvg::NodeKind`. The `path`/`image` payloads carry
the bounding box the external `path::draw` / `image::draw` primitive
reports for that node (those rasterizers are external collaborators). -/
inductive NodeKind where
  | svg
  | path (drawBBox : Option Rect)
  | image (drawBBox : Rect)
  | group (g : Group)
  | clipPathKind (cp : ClipPathDef)
  | maskKind
  | filterKind
  | defsKind
deriving DecidableEq, Repr

/-- A document-tree node: arena id, kind, local transform, children in
document order (`usvg::Node`; node equality in the source is `Rc` pointer
identity, modelled by the arena id). -/
inductive Node where
  | mk (nid : Nat) (kind : NodeKind) (tf : Transform) (children : List Node)

/-- Arena id of a node. -/
def Node.nid : Node → Nat
  | .mk i _ _ _ => i

/-- Kind of a node. -/
def Node.kind : Node → NodeKind
  | .mk _ k _ _ => k

/-- `Node::transform()`: the node's local transform. -/
def Node.tf : Node → Transform
  | .mk _ _ t _ => t

/-- `Node::children()`: the node's children in document order. -/
def Node.children : Node → List Node
  | .mk _ _ _ cs => cs

/-- `Node::first_child()`. -/
def Node.first_child (n : Node) : Option Node := n.children.head?

/-- The document tree: the defs section reachable through
`tree().defs_by_id(id)`. -/
structure Tree where
  defs : List (String × Node)

/-- `Tree::defs_by_id(id)`: look up a referenced definition. -/
def Tree.defs_by_id (t : Tree) (id : String) : Option Node :=
  (t.defs.find? (fun p => p.1 = id)).map (fun p => p.2)

/-- Resolve an id to a `ClipPath` definition: `defs_by_id` followed by the
`NodeKind::ClipPath` pattern match the source performs. -/
def Tree.defsClip (t : Tree) (id : String) : Option (Node × ClipPathDef) :=
  match t.defs_by_id id with
  | some n =>
    match n.kind with
    | .clipPathKind cp => some (n, cp)
    | _ => none
  | none => none

/-- Resolve an id to a `Filter` definition node. -/
def Tree.defsFilter (t : Tree) (id : String) : Option Node :=
  match t.defs_by_id id with
  | some n => match n.kind with
    | .filterKind => some n
    | _ => none
  | none => none

/-- Resolve an id to a `Mask` definition node. -/
def Tree.defsMask (t : Tree) (id : String) : Option Node :=
  match t.defs_by_id id with
  | some n => match n.kind with
    | .maskKind => some n
    | _ => none
  | none => none

/-- Coarse raster content of a surface: either a uniform RGBA fill (the
result of `fill(r,g,b,a)` / fresh zero-filled allocation) or arbitrary
drawn content. -/
inductive SurfContent where
  | filled (r g b a : Nat)
  | dirty
deriving DecidableEq, Repr

/-- Skia blend modes used by the core. -/
inductive BlendMode where
  | sourceOver
  | clear
  | destOut
  | xorMode
deriving DecidableEq, Repr

/-- Observable drawing events on a skia canvas/surface. Each records the
state (transform, operator, alpha) in force when it was issued. -/
inductive CanvasOp where
  | drawSurface (srcSid : Nat) (dx dy : ℚ) (alpha : Nat) (blend : BlendMode) (m : Transform)
  | drawPath (nid : Nat) (blend : BlendMode) (m : Transform)
  | drawImage (nid : Nat) (m : Transform)
  | fillAll (r g b a : Nat)
  | applyFilter (id : String) (m : Transform)
  | applyClip (id : String) (m : Transform)
  | applyMask (id : String) (m : Transform)
deriving DecidableEq, Repr

/-- A skia surface together with its canvas state: surface identity,
current transform, drawing-event log and coarse raster content
(`skia::Surface` doubles as the drawing target in the skia backend). -/
structure Canvas where
  sid : Nat
  matrix : Transform
  ops : List CanvasOp
  content : SurfContent
deriving DecidableEq, Repr

/-- A default canvas (used only as the `getD` fallback of list indexing). -/
def Canvas.defaultC : Canvas := ⟨0, Transform.identity, [], .dirty⟩

instance : Inhabited Canvas := ⟨Canvas.defaultC⟩

/-- `canvas.get_matrix()` is field access; `canvas.set_matrix(&m)`. -/
def Canvas.set_matrix (c : Canvas) (m : Transform) : Canvas := { c with matrix := m }

/-- `canvas.concat(&m)`: right-multiply the current transform. -/
def Canvas.concat (c : Canvas) (m : Transform) : Canvas :=
  { c with matrix := c.matrix.mul m }

/-- `canvas.reset_matrix()`: set the current transform to identity. -/
def Canvas.reset_matrix (c : Canvas) : Canvas := { c with matrix := Transform.identity }

/-- `surface.fill(r,g,b,a)`: fill the whole surface with one RGBA value. -/
def Canvas.fill (c : Canvas) (r g b a : Nat) : Canvas :=
  { c with content := .filled r g b a, ops := c.ops ++ [.fillAll r g b a] }

/-- `canvas.draw_surface(src, dx, dy, alpha, blend, quality)`: blit a layer
onto this canvas (filter quality is always `Low` in the core and carries no
information). -/
def Canvas.draw_surface (c : Canvas) (srcSid : Nat) (dx dy : ℚ) (alpha : Nat)
    (blend : BlendMode) : Canvas :=
  { c with ops := c.ops ++ [.drawSurface srcSid dx dy alpha blend c.matrix],
           content := .dirty }

/-- External `path::draw(tree, path, SourceOver, canvas)`: one drawing event
under the current transform. -/
def Canvas.draw_path (c : Canvas) (nid : Nat) : Canvas :=
  { c with ops := c.ops ++ [.drawPath nid .sourceOver c.matrix], content := .dirty }

/-- External `image::draw(img, canvas)`. -/
def Canvas.draw_image (c : Canvas) (nid : Nat) : Canvas :=
  { c with ops := c.ops ++ [.drawImage nid c.matrix], content := .dirty }

/-- External `filter::apply(filter, bbox, ts, tree, …, surface)`: applies
the referenced filter to this surface; `ts` is the transform handed over. -/
def Canvas.apply_filter (c : Canvas) (id : String) (ts : Transform) : Canvas :=
  { c with ops := c.ops ++ [.applyFilter id ts], content := .dirty }

/-- `clip::clip(clip_node, cp, bbox, layers, surface)` of the skia backend:
modelled by its observable effect on the clipped surface (the clip module
of the skia backend is outside the sources under verification). -/
def Canvas.apply_clip (c : Canvas) (id : String) : Canvas :=
  { c with ops := c.ops ++ [.applyClip id c.matrix], content := .dirty }

/-- External `mask::mask(mask_node, mask, bbox, layers, surface)`. -/
def Canvas.apply_mask (c : Canvas) (id : String) : Canvas :=
  { c with ops := c.ops ++ [.applyMask id c.matrix], content := .dirty }

/-- A fresh, uninitialized surface from
`skia::Surface::new_rgba_premultiplied(w,h)` (an external allocation that
can fail; the caller immediately zero-fills it). -/
def Canvas.newRgbaPremultiplied (sid : Nat) : Canvas :=
  ⟨sid, Transform.identity, [], .dirty⟩

/-- `render::create_subsurface(size)`: allocate a surface and zero-fill it;
`allocOk` stands for the external allocator's success. -/
def create_subsurface (allocOk : Bool) (sid : Nat) (_size : ScreenSize) : Option Canvas :=
  match (if allocOk then some (Canvas.newRgbaPremultiplied sid) else none) with
  | some surface => some (surface.fill 0 0 0 0)
  | none => none

/-- The layer pool of `layers.rs`: the surface vector `d`, the in-use lease
count (`Rc::strong_count(&self.counter) - 1` in the source) and the image
size. `allocOk` is the external allocator's behaviour for new surfaces. -/
structure Layers where
  d : List Canvas
  used : Nat
  img_size : ScreenSize
  allocOk : Bool
deriving DecidableEq, Repr

/-- `Layers::image_size()`. -/
def Layers.image_size (ly : Layers) : ScreenSize := ly.img_size

/-- `Layers::get()`: return a zero-filled layer lease, allocating a new
surface when every pooled surface is in use. A lease is modelled by the
slot index plus a snapshot of the surface (the `RefCell` guarantees nobody
else touches that slot while the lease is live); `Layers.release` writes
the mutated surface back and drops the lease. -/
def Layers.get (ly : Layers) : Option (Nat × Canvas) × Layers :=
  let used_layers := ly.used
  if used_layers = ly.d.length then
    match create_subsurface ly.allocOk (ly.d.length + 1) ly.img_size with
    | some img =>
      (some (ly.d.length, img), { ly with d := ly.d ++ [img], used := ly.used + 1 })
    | none => (none, ly)
  else
    let img := (ly.d.getD used_layers Canvas.defaultC).fill 0 0 0 0
    (some (used_layers, img), { ly with d := ly.d.set used_layers img, used := ly.used + 1 })

/-- Dropping a `Layer` lease: the mutations performed through the lease are
in the pool's slot, and the shared counter decrements. -/
def Layers.release (ly : Layers) (idx : Nat) (s : Canvas) : Layers :=
  { ly with d := ly.d.set idx s, used := ly.used - 1 }

/-- The render state of `render.rs` (`RenderUntil` carries the target
node's identity: the source compares `usvg::Node`s by `Rc` pointer
identity, modelled by the arena id). -/
inductive RenderState where
  | Ok
  | RenderUntil (last : Nat)
  | BackgroundFinished
deriving DecidableEq, Repr

/-- Result of `render_node` / `render_group` / `render_group_impl`: the
returned bounding box plus the final values of the `&mut` parameters
(state, layer pool, canvas). -/
structure RRes where
  bbox : Option Rect
  st : RenderState
  ly : Layers
  c : Canvas
deriving DecidableEq, Repr

/-- Result of the child loop of `render_group`: the accumulated `g_bbox`
plus the final `&mut` parameters. -/
structure GoRes where
  acc : Rect
  st : RenderState
  ly : Layers
  c : Canvas
deriving DecidableEq, Repr

/-- Rust numeric cast `as u8` applied to a nonnegative `f64`: truncation
toward zero with saturation at 255. -/
def f64_as_u8 (q : ℚ) : Nat := min (Int.toNat ⌊q⌋) 255

/-- The alpha computation of the composite step of `render_group_impl`:
`if !g.opacity.is_default() { (g.opacity.value() * 255.0) as u8 } else { 255 }`. -/
def composite_alpha (o : Opacity) : Nat :=
  if !o.is_default then f64_as_u8 (o.value * 255) else 255

/-- The filter block of `render_group_impl` (render.rs lines 195-207): if
the group's filter id resolves to a `Filter` definition, the external
`filter::apply` runs on the sub-surface with the entry transform `ts`.
The `prepare_filter_background` / fill-paint / stroke-paint helpers draw
only on freshly allocated auxiliary surfaces that are consumed by
`filter::apply`, so their effect is part of the recorded filter event. -/
def filter_stage (t : Tree) (g : Group) (ts : Transform) (sub : Canvas) : Canvas :=
  match g.filter with
  | some id =>
    match t.defsFilter id with
    | some _ => sub.apply_filter id ts
    | none => sub
  | none => sub

/-- The clip block of `render_group_impl`: if the group's clip-path id
resolves to a `ClipPath` definition, set the sub-surface transform to the
entry transform and invoke the clip engine. -/
def clip_stage (t : Tree) (g : Group) (curr_ts : Transform) (sub : Canvas) : Canvas :=
  match g.clip_path with
  | some id =>
    match t.defsClip id with
    | some _ => (sub.set_matrix curr_ts).apply_clip id
    | none => sub
  | none => sub

/-- The mask block of `render_group_impl`: as `clip_stage`, for masks. -/
def mask_stage (t : Tree) (g : Group) (curr_ts : Transform) (sub : Canvas) : Canvas :=
  match g.mask with
  | some id =>
    match t.defsMask id with
    | some _ => (sub.set_matrix curr_ts).apply_mask id
    | none => sub
  | none => sub

/-- Clipping and masking are done only for objects with a valid bbox
(`if let Some(bbox) = bbox { … }` around the clip and mask blocks). -/
def clip_mask_stage (t : Tree) (g : Group) (bbox : Option Rect) (curr_ts : Transform)
    (sub : Canvas) : Canvas :=
  match bbox with
  | some _ => mask_stage t g curr_ts (clip_stage t g curr_ts sub)
  | none => sub

/-- The `RenderUntil` test of the child loop: `node == *last` (node
identity by arena id). -/
def hitsTarget (st : RenderState) (node : Node) : Bool :=
  match st with
  | .RenderUntil last => node.nid == last
  | _ => false

mutual

/-- `render_node`: dispatch on the node kind (render.rs lines 93-114). -/
def render_node (t : Tree) (n : Node) (st : RenderState) (ly : Layers) (c : Canvas) : RRes :=
  match n with
  | .mk nid kind _tf children =>
    match kind with
    | .svg => render_group t children st ly c
    | .path pb => ⟨pb, st, ly, c.draw_path nid⟩
    | .image ib => ⟨some ib, st, ly, c.draw_image nid⟩
    | .group g => render_group_impl t nid g children st ly c
    | _ => ⟨none, st, ly, c⟩
termination_by 4 * sizeOf n
decreasing_by all_goals (simp_wf <;> omega)

/-- `render_group(parent, …)` (render.rs lines 116-157): capture the
current transform, loop over the parent's children, then return
`Some(g_bbox)` iff the accumulator moved off the `Rect::new_bbox()`
sentinel. -/
def render_group (t : Tree) (children : List Node) (st : RenderState) (ly : Layers)
    (c : Canvas) : RRes :=
  let curr_ts := c.matrix
  let r := render_group_go t children st ly c curr_ts Rect.new_bbox
  ⟨if r.acc.fuzzy_ne Rect.new_bbox then some r.acc else none, r.st, r.ly, r.c⟩
termination_by 4 * sizeOf children + 2
decreasing_by all_goals (simp_wf <;> omega)

/-- The child loop of `render_group` (render.rs lines 125-149): inspect the
state (`BackgroundFinished` breaks; a `RenderUntil` hit flips the state to
`BackgroundFinished` and breaks), otherwise concat the child transform,
recurse, fold the mapped bbox into the accumulator and restore the saved
transform. -/
def render_group_go (t : Tree) (cs : List Node) (st : RenderState) (ly : Layers)
    (c : Canvas) (curr_ts : Transform) (g_bbox : Rect) : GoRes :=
  match cs with
  | [] => ⟨g_bbox, st, ly, c⟩
  | node :: rest =>
    if st = .BackgroundFinished then ⟨g_bbox, st, ly, c⟩
    else if hitsTarget st node then ⟨g_bbox, .BackgroundFinished, ly, c⟩
    else
      let c1 := c.concat node.tf
      let r := render_node t node st ly c1
      let g2 :=
        match r.bbox with
        | some b =>
          match b.rtransform node.tf with
          | some b2 => g_bbox.expand b2
          | none => g_bbox
        | none => g_bbox
      let c3 := r.c.set_matrix curr_ts
      render_group_go t rest r.st r.ly c3 curr_ts g2
termination_by 4 * sizeOf cs + 1
decreasing_by all_goals (simp_wf <;> omega)

/-- `render_group_impl(node, g, …)` (render.rs lines 159-244): borrow a
sub-surface, render the children into it under the entry transform, then
either blit it untouched (`BackgroundFinished` short-circuit) or run the
filter, clip and mask stages and composite with the group alpha. -/
def render_group_impl (t : Tree) (nid : Nat) (g : Group) (children : List Node)
    (st : RenderState) (ly : Layers) (c : Canvas) : RRes :=
  match ly.get with
  | (none, ly') => ⟨none, st, ly', c⟩
  | (some (idx, sub0), ly1) =>
    let curr_ts := c.matrix
    let sub1 := sub0.set_matrix curr_ts
    let r := render_group t children st ly1 sub1
    if r.st = .BackgroundFinished then
      let c1 := c.reset_matrix
      let c2 := c1.draw_surface r.c.sid 0 0 255 .sourceOver
      let c3 := c2.set_matrix c.matrix
      ⟨r.bbox, r.st, r.ly.release idx r.c, c3⟩
    else
      let sub2 := filter_stage t g curr_ts r.c
      let sub3 := clip_mask_stage t g r.bbox curr_ts sub2
      let a := composite_alpha g.opacity
      let c1 := c.reset_matrix
      let c2 := c1.draw_surface sub3.sid 0 0 a .sourceOver
      let c3 := c2.set_matrix c.matrix
      ⟨r.bbox, r.st, r.ly.release idx sub3, c3⟩
termination_by 4 * sizeOf children + 3
decreasing_by all_goals (simp_wf <;> omega)

end

/-- Cairo compositing operators used by the clip engine
(`cairo::Operator`). -/
inductive COperator where
  | over
  | clear
  | destOut
  | xorOp
deriving DecidableEq, Repr

/-- A cairo source: a solid RGBA or a pooled layer surface, identified by
its pool slot (`set_source_surface` is always called with offset (0,0) in
the clip engine). -/
inductive CSrc where
  | rgba (r g b a : ℚ)
  | layer (idx : Nat)
deriving DecidableEq, Repr

/-- Observable events on a cairo target surface: operator/source state
changes, full-target paints and path fills, the latter two recording the
state in force when issued. -/
inductive CairoOp where
  | setOperator (op : COperator)
  | setSource (src : CSrc)
  | resetSource
  | paint (op : COperator) (src : CSrc) (m : Transform)
  | drawPath (nid : Nat) (op : COperator) (m : Transform)
deriving DecidableEq, Repr

/-- A cairo drawing context (`cairo::Context`), carrying the event log of
the one surface it targets. -/
structure CCtx where
  matrix : Transform
  operator : COperator
  source : CSrc
  ops : List CairoOp
deriving DecidableEq, Repr

/-- `cairo::Context::new(&surface)`: cairo's defaults are operator `Over`
and an opaque black source. -/
def CCtx.new : CCtx := ⟨Transform.identity, .over, .rgba 0 0 0 1, []⟩

/-- `cr.set_matrix(m)` / `cr.get_matrix()` is the `matrix` field. -/
def CCtx.set_matrix (c : CCtx) (m : Transform) : CCtx := { c with matrix := m }

/-- `cr.transform(m)`: right-multiply the current matrix. -/
def CCtx.transform (c : CCtx) (m : Transform) : CCtx := { c with matrix := c.matrix.mul m }

/-- `cr.set_operator(op)`. -/
def CCtx.set_operator (c : CCtx) (op : COperator) : CCtx :=
  { c with operator := op, ops := c.ops ++ [.setOperator op] }

/-- `cr.set_source_rgba(..)` / `cr.set_source_surface(.., 0.0, 0.0)`. -/
def CCtx.set_source (c : CCtx) (s : CSrc) : CCtx :=
  { c with source := s, ops := c.ops ++ [.setSource s] }

/-- `cr.reset_source_rgba()`: reset the source to unborrow any surface. -/
def CCtx.reset_source (c : CCtx) : CCtx :=
  { c with source := .rgba 0 0 0 0, ops := c.ops ++ [.resetSource] }

/-- `cr.paint()`: composite the current source over the whole target with
the current operator, under the current matrix. -/
def CCtx.paint (c : CCtx) : CCtx :=
  { c with ops := c.ops ++ [.paint c.operator c.source c.matrix] }

/-- External `path::draw(tree, path, cr)` of the cairo backend: fill the
path on the target with the current operator and matrix. -/
def CCtx.draw_path (c : CCtx) (nid : Nat) : CCtx :=
  { c with ops := c.ops ++ [.drawPath nid c.operator c.matrix] }

/-- A pooled cairo surface: the event log drawn on it so far (a fresh or
zero-filled surface has an empty log). -/
structure CSurf where
  ops : List CairoOp
deriving DecidableEq, Repr

/-- Modelled from the spec: the cairo backend's layer pool. Its
`layers.rs` is not among the sources under verification; per spec §4.B it
mirrors the skia pool: `get` leases a zero-filled surface from slot `used`,
allocating a new one on exhaustion (`allocOk` is the external allocator's
behaviour), and a lease release writes the drawn surface back. -/
structure CLayers where
  d : List CSurf
  used : Nat
  allocOk : Bool
deriving DecidableEq, Repr

/-- Modelled from the spec: `Layers::get` of the cairo backend. -/
def CLayers.get (ly : CLayers) : Option Nat × CLayers :=
  if ly.used = ly.d.length then
    if ly.allocOk then
      (some ly.d.length, { ly with d := ly.d ++ [⟨[]⟩], used := ly.used + 1 })
    else (none, ly)
  else
    (some ly.used, { ly with d := ly.d.set ly.used ⟨[]⟩, used := ly.used + 1 })

/-- Modelled from the spec: dropping a cairo layer lease. -/
def CLayers.release (ly : CLayers) (idx : Nat) (s : CSurf) : CLayers :=
  { ly with d := ly.d.set idx s, used := ly.used - 1 }

/-- `draw_group_child(node, cr)` (clip.rs lines 102-113): concat the first
child's transform, then draw that child only if it is a `Path`; other
kinds and all further children are ignored. -/
def draw_group_child (node : Node) (cr : CCtx) : CCtx :=
  match node.first_child with
  | some child =>
    let cr1 := cr.transform child.tf
    match child.kind with
    | .path _ => cr1.draw_path child.nid
    | _ => cr1
  | none => cr

/-- The private mask context of `clip` after its setup (clip.rs lines
17-27): a black paint over the leased layer, the caller's matrix composed
with the clip-path transform (and the bbox transform for
`ObjectBoundingBox` units), operator `Clear`. -/
def cclip_setup (cp : ClipPathDef) (bbox : Rect) (crMatrix : Transform) : CCtx :=
  let c1 := ((CCtx.new).set_source (.rgba 0 0 0 1)).paint
  let c2 := c1.set_matrix crMatrix
  let c3 := c2.transform cp.transform
  let c4 :=
    if cp.units = .objectBoundingBox then c3.transform (Transform.from_bbox bbox) else c3
  c4.set_operator .clear

/-- The final composite of `clip` (clip.rs lines 54-63) on the caller's
context: identity matrix, source = the mask layer, one `DestOut` paint,
then operator back to `Over` and source reset. -/
def cclip_compose (cr : CCtx) (idx : Nat) : CCtx :=
  (((((cr.set_matrix Transform.identity).set_source (.layer idx)).set_operator
      .destOut).paint).set_operator .over).reset_source

/-- The blit of `clip_group` (clip.rs lines 92-96) on the received
context: identity matrix, operator set to `Xor`, source set to the second
layer, operator set to `DestOut`, and one paint. -/
def cclip_group_blit (cr : CCtx) (idx : Nat) : CCtx :=
  ((((cr.set_matrix Transform.identity).set_operator .xorOp).set_source
      (.layer idx)).set_operator .destOut).paint

mutual

/-- `clip(node, cp, bbox, layers, cr)` (clip.rs lines 7-64): lease a
layer, build the black mask (children punched out with `Clear`,
`Group` children handled by `clip_group`), recurse into a nested
`clip_path` reference of the clip-path itself (the recursion receives the
same `cr` the current call received), then composite the mask onto `cr`
with `DestOut`. `fuel` bounds the recursion through `defs_by_id`
references, which is not structural in the document tree; out of fuel the
model returns its inputs unchanged, and every claim is settled at a fuel
exceeding the reference depth. -/
def cclip (fuel : Nat) (t : Tree) (node : Node) (cp : ClipPathDef) (bbox : Rect)
    (ly : CLayers) (cr : CCtx) : CLayers × CCtx :=
  match fuel with
  | 0 => (ly, cr)
  | fuel + 1 =>
    match ly.get with
    | (none, ly') => (ly', cr)
    | (some idx, ly1) =>
      let c5 := cclip_setup cp bbox cr.matrix
      let saved := c5.matrix
      let (ly2, c6) := cclip_children fuel t node.children bbox ly1 c5 saved
      let (ly3, cr1) :=
        match cp.clip_path with
        | some id =>
          match t.defsClip id with
          | some (n2, cp2) => cclip fuel t n2 cp2 bbox ly2 cr
          | none => (ly2, cr)
        | none => (ly2, cr)
      (ly3.release idx ⟨c6.ops⟩, cclip_compose cr1 idx)
termination_by (fuel, 0)

/-- The child loop of `clip` (clip.rs lines 29-44): concat the child's
transform, draw `Path` children with the current (`Clear`) operator,
recurse into `Group` children via `clip_group`, ignore other kinds, and
restore the saved matrix after every child. -/
def cclip_children (fuel : Nat) (t : Tree) (cs : List Node) (bbox : Rect)
    (ly : CLayers) (ccr : CCtx) (saved : Transform) : CLayers × CCtx :=
  match cs with
  | [] => (ly, ccr)
  | child :: rest =>
    let c1 := ccr.transform child.tf
    let (ly1, c2) :=
      match child.kind with
      | .path _ => (ly, c1.draw_path child.nid)
      | .group g => cclip_group fuel t child g bbox ly c1
      | _ => (ly, c1)
    let c3 := c2.set_matrix saved
    cclip_children fuel t rest bbox ly1 c3 saved
termination_by (fuel, 2 * sizeOf cs + 2)

/-- `clip_group(node, g, bbox, layers, cr)` (clip.rs lines 66-100): only
when the group's own `clip_path` id resolves to a `ClipPath` definition,
lease a second layer, zero it, draw the group's first path child on it,
clip that layer recursively, and blit it onto the received context; in
every other case nothing at all is drawn. -/
def cclip_group (fuel : Nat) (t : Tree) (node : Node) (g : Group) (bbox : Rect)
    (ly : CLayers) (cr : CCtx) : CLayers × CCtx :=
  match g.clip_path with
  | some id =>
    match t.defsClip id with
    | some (clipNode, cp) =>
      match ly.get with
      | (none, ly') => (ly', cr)
      | (some idx2, ly1) =>
        let c1 := ((CCtx.new).set_source (.rgba 0 0 0 0)).paint
        let c2 := c1.set_matrix cr.matrix
        let c3 := draw_group_child node c2
        let (ly2, c4) := cclip fuel t clipNode cp bbox ly1 c3
        (ly2.release idx2 ⟨c4.ops⟩, cclip_group_blit cr idx2)
    | none => (ly, cr)
  | none => (ly, cr)
termination_by (fuel, 2 * sizeOf node + 1)

end

/-! Concrete fixtures for witnesses and counterexamples. -/

/-- An empty defs section. -/
def exTree : Tree := ⟨[]⟩

/-- A root canvas: identity transform, transparent, empty event log. -/
def exCanvas : Canvas := ⟨0, Transform.identity, [], .filled 0 0 0 0⟩

/-- An empty skia layer pool over a 10x10 image with a working allocator. -/
def lyW : Layers := ⟨[], 0, ⟨10, 10⟩, true⟩

/-- A path node with arena id 7. -/
def exChild : Node := .mk 7 (.path (some ⟨0, 0, 4, 4⟩)) Transform.identity []

/-- A group with opacity 1/2 and no references. -/
def exGroupHalf : Group := ⟨none, none, none, ⟨1/2⟩⟩

/-- The first sub-surface `lyW.get` hands out. -/
def sub0W : Canvas := (Canvas.newRgbaPremultiplied 1).fill 0 0 0 0

/-- The pool after that lease. -/
def ly1W : Layers := ⟨[sub0W], 1, ⟨10, 10⟩, true⟩

/-- Result of rendering `[exChild]` in state `RenderUntil 7` into the
sub-surface: the loop hits the target at once and flips to
`BackgroundFinished`. -/
def rBFW : RRes := ⟨none, .BackgroundFinished, ly1W, sub0W.set_matrix exCanvas.matrix⟩

/-- A filter definition node, a tree exposing it as "f1", and a group
referencing it. -/
def exFilterNode : Node := .mk 40 .filterKind Transform.identity []

/-- Defs section binding "f1" to `exFilterNode`. -/
def exTreeF : Tree := ⟨[("f1", exFilterNode)]⟩

/-- A group whose only reference is the filter "f1". -/
def exGroupF : Group := ⟨none, none, some "f1", ⟨1⟩⟩

/-- Result of rendering no children in state `Ok` into the sub-surface. -/
def rOkW : RRes := ⟨none, .Ok, ly1W, sub0W.set_matrix exCanvas.matrix⟩

/-- The unit square. -/
def bboxUnit : Rect := ⟨0, 0, 1, 1⟩

/-- An empty cairo layer pool with a working allocator. -/
def clyEmpty : CLayers := ⟨[], 0, true⟩

/-- A clip-path definition with no nested reference. -/
def cpInner : ClipPathDef := ⟨.userSpaceOnUse, Transform.identity, none⟩

/-- Its defs node, arena id 20. -/
def nodeInner : Node := .mk 20 (.clipPathKind cpInner) Transform.identity []

/-- Defs section binding "inner" to `nodeInner`. -/
def treeNested : Tree := ⟨[("inner", nodeInner)]⟩

/-- A clip-path definition that itself carries the nested reference
"inner". -/
def cpOuter : ClipPathDef := ⟨.userSpaceOnUse, Transform.identity, some "inner"⟩

/-- Its node, arena id 21, no children. -/
def nodeOuter : Node := .mk 21 (.clipPathKind cpOuter) Transform.identity []

/-- Evaluating the outer clip (which has the nested "inner" reference) on
a fresh pool and a fresh caller context. -/
def clipNestedRun : CLayers × CCtx :=
  cclip 2 treeNested nodeOuter cpOuter bboxUnit clyEmpty CCtx.new

/-- A clip-path definition for a clip-group child. -/
def cpG : ClipPathDef := ⟨.userSpaceOnUse, Transform.identity, none⟩

/-- Its defs node, arena id 30. -/
def nodeCpG : Node := .mk 30 (.clipPathKind cpG) Transform.identity []

/-- Defs section binding "gclip" to `nodeCpG`. -/
def treeG : Tree := ⟨[("gclip", nodeCpG)]⟩

/-- A path node with arena id 31, first child of the clip-group. -/
def pathChild31 : Node := .mk 31 (.path none) Transform.identity []

/-- A group referencing the clip-path "gclip". -/
def groupWithClip : Group := ⟨some "gclip", none, none, ⟨1⟩⟩

/-- The group node, arena id 32, with the path child. -/
def groupNode32 : Node := .mk 32 (.group groupWithClip) Transform.identity [pathChild31]

/-- Evaluating `clip_group` on that group from a fresh pool and caller
context. -/
def clipGroupRun : CLayers × CCtx :=
  cclip_group 1 treeG groupNode32 groupWithClip bboxUnit clyEmpty CCtx.new

/-- A group with no references at all. -/
def exGroupPlain : Group := ⟨none, none, none, ⟨1⟩⟩

/-- The mask-building log of a childless clip-path definition: black fill,
then operator `Clear` (nothing gets punched out). -/
def maskOpsW : List CairoOp :=
  [.setSource (.rgba 0 0 0 1), .paint .over (.rgba 0 0 0 1) Transform.identity,
   .setOperator .clear]

/-- The cairo pool after its first lease. -/
def cly1W : CLayers := ⟨[⟨[]⟩], 1, true⟩

/-- The cairo pool after a nested `clip` call borrowed slot 1, drew the
childless mask and released it. -/
def cly3W : CLayers := ⟨[⟨[]⟩, ⟨maskOpsW⟩], 1, true⟩

/-- The caller context after the nested `clip` composited its mask (slot 1)
onto it. -/
def cr1W : CCtx := cclip_compose CCtx.new 1

/-- The second-layer context of `clip_group` on `groupNode32` after the
zero fill, matrix copy and first-path-child draw. -/
def c3W : CCtx :=
  draw_group_child groupNode32
    ((((CCtx.new).set_source (.rgba 0 0 0 0)).paint).set_matrix (CCtx.new).matrix)

/-- That context after the group's clip-path (mask on slot 1) was
composited onto it. -/
def c4W : CCtx := cclip_compose c3W 1

/-! Helper lemmas shared by the claim theorems. -/

/-- `fuzzy_ne` is irreflexive: a rect does not fuzzily differ from itself. -/
theorem fuzzy_ne_self (r : Rect) : r.fuzzy_ne r = false := by
  simp [Rect.fuzzy_ne]

/-- In state `BackgroundFinished` the child loop of `render_group` is a
no-op: it neither renders nor touches the pool, the canvas or the
accumulator. -/
theorem render_group_go_background (t : Tree) (cs : List Node) (ly : Layers)
    (c : Canvas) (ts : Transform) (acc : Rect) :
    render_group_go t cs .BackgroundFinished ly c ts acc
      = ⟨acc, .BackgroundFinished, ly, c⟩ := by
  cases cs <;> simp [render_group_go]

/-- The child loop restores the saved transform after every child, so it
leaves the canvas transform at the saved value whenever it started there. -/
theorem render_group_go_matrix (t : Tree) (cs : List Node) :
    ∀ (st : RenderState) (ly : Layers) (c : Canvas) (ts : Transform) (acc : Rect),
      c.matrix = ts → (render_group_go t cs st ly c ts acc).c.matrix = ts := by
  induction cs with
  | nil =>
    intro st ly c ts acc h
    simpa [render_group_go] using h
  | cons node rest ih =>
    intro st ly c ts acc h
    rw [render_group_go]
    split
    · simpa using h
    · split
      · simpa using h
      · exact ih _ _ _ _ _ rfl

/-- `render_group` preserves the canvas transform. -/
theorem render_group_matrix (t : Tree) (children : List Node) (st : RenderState)
    (ly : Layers) (c : Canvas) :
    (render_group t children st ly c).c.matrix = c.matrix := by
  simp only [render_group]
  exact render_group_go_matrix t children st ly c c.matrix Rect.new_bbox rfl

/-- `render_group_impl` preserves the parent canvas transform: the only
mutations of the parent canvas are the composite blit's save / reset /
restore, in both the `BackgroundFinished` branch and the normal branch. -/
theorem render_group_impl_matrix (t : Tree) (nid : Nat) (g : Group)
    (children : List Node) (st : RenderState) (ly : Layers) (c : Canvas) :
    (render_group_impl t nid g children st ly c).c.matrix = c.matrix := by
  rcases hget : ly.get with ⟨o, ly1⟩
  rcases o with _ | ⟨idx, sub0⟩
  · simp [render_group_impl, hget]
  · simp only [render_group_impl, hget]
    split <;> simp [Canvas.set_matrix, Canvas.draw_surface, Canvas.reset_matrix]

/-- `render_node` preserves the canvas transform, whatever the node kind. -/
theorem render_node_matrix (t : Tree) (n : Node) (st : RenderState)
    (ly : Layers) (c : Canvas) :
    (render_node t n st ly c).c.matrix = c.matrix := by
  cases n with
  | mk nid kind tf children =>
    cases kind with
    | svg => rw [render_node]; exact render_group_matrix ..
    | path pb => rw [render_node]; rfl
    | image ib => rw [render_node]; rfl
    | group g => rw [render_node]; exact render_group_impl_matrix ..
    | clipPathKind cp => simp [render_node]
    | maskKind => simp [render_node]
    | filterKind => simp [render_node]
    | defsKind => simp [render_node]

/-- C4: `Layers::get` allocates, pushes and leases a fresh zero-filled
surface when the in-use count equals the vector length (returning `None`
with the vector and the in-use count unchanged on allocation failure),
otherwise zero-fills and leases the surface at index `used`; every
returned lease refers to a fully transparent surface. -/
theorem layers_get_spec (ly : Layers) :
    (ly.used = ly.d.length → ly.allocOk = true →
      ly.get = (some (ly.d.length, (Canvas.newRgbaPremultiplied (ly.d.length + 1)).fill 0 0 0 0),
        { ly with d := ly.d ++ [(Canvas.newRgbaPremultiplied (ly.d.length + 1)).fill 0 0 0 0],
                  used := ly.used + 1 }))
    ∧ (ly.used = ly.d.length → ly.allocOk = false → ly.get = (none, ly))
    ∧ (ly.used ≠ ly.d.length →
      ly.get = (some (ly.used, (ly.d.getD ly.used Canvas.defaultC).fill 0 0 0 0),
        { ly with d := ly.d.set ly.used ((ly.d.getD ly.used Canvas.defaultC).fill 0 0 0 0),
                  used := ly.used + 1 }))
    ∧ (∀ idx s ly', ly.get = (some (idx, s), ly') → s.content = .filled 0 0 0 0) := by
  have h1 : ly.used = ly.d.length → ly.allocOk = true →
      ly.get = (some (ly.d.length, (Canvas.newRgbaPremultiplied (ly.d.length + 1)).fill 0 0 0 0),
        { ly with d := ly.d ++ [(Canvas.newRgbaPremultiplied (ly.d.length + 1)).fill 0 0 0 0],
                  used := ly.used + 1 }) := by
    intro h ha
    simp [Layers.get, create_subsurface, h, ha]
  have h2 : ly.used = ly.d.length → ly.allocOk = false → ly.get = (none, ly) := by
    intro h ha
    simp [Layers.get, create_subsurface, h, ha]
  have h3 : ly.used ≠ ly.d.length →
      ly.get = (some (ly.used, (ly.d.getD ly.used Canvas.defaultC).fill 0 0 0 0),
        { ly with d := ly.d.set ly.used ((ly.d.getD ly.used Canvas.defaultC).fill 0 0 0 0),
                  used := ly.used + 1 }) := by
    intro h
    simp [Layers.get, h]
  refine ⟨h1, h2, h3, ?_⟩
  intro idx s ly' hget
  by_cases h : ly.used = ly.d.length
  · cases ha : ly.allocOk
    · rw [h2 h ha] at hget
      exact absurd hget (by simp)
    · rw [h1 h ha] at hget
      simp only [Prod.mk.injEq, Option.some.injEq] at hget
      rw [← hget.1.2]
      rfl
  · rw [h3 h] at hget
    simp only [Prod.mk.injEq, Option.some.injEq] at hget
    rw [← hget.1.2]
    rfl

/-- Witness for C4: on an empty pool with a working allocator, `get`
indeed pushes and leases a fresh transparent surface. -/
theorem layers_get_spec_witness :
    lyW.used = lyW.d.length ∧ lyW.allocOk = true ∧
      lyW.get = (some (0, (Canvas.newRgbaPremultiplied 1).fill 0 0 0 0),
        { lyW with d := [(Canvas.newRgbaPremultiplied 1).fill 0 0 0 0], used := 1 }) := by
  refine ⟨rfl, rfl, ?_⟩
  have h := (layers_get_spec lyW).1 rfl rfl
  simpa [lyW] using h

/-- C1: in the child loop of `render_group`, when the iterated child is
the `RenderUntil` target the state becomes `BackgroundFinished` and the
loop terminates at once without rendering the target (accumulator, pool
and canvas are untouched and the remaining siblings are never reached);
when the state is `BackgroundFinished` on inspecting any child the loop
terminates immediately without rendering that child or any later sibling,
so `render_group` in that state changes nothing and reports no bbox. -/
theorem render_group_render_until (t : Tree) (target : Node)
    (rest cs children : List Node) (ly : Layers) (c : Canvas) (ts : Transform)
    (acc : Rect) :
    render_group_go t (target :: rest) (.RenderUntil target.nid) ly c ts acc
        = ⟨acc, .BackgroundFinished, ly, c⟩
    ∧ render_group_go t cs .BackgroundFinished ly c ts acc
        = ⟨acc, .BackgroundFinished, ly, c⟩
    ∧ render_group t children .BackgroundFinished ly c
        = ⟨none, .BackgroundFinished, ly, c⟩ := by
  refine ⟨?_, render_group_go_background .., ?_⟩
  · rw [render_group_go]
    simp [hitsTarget]
  · simp [render_group, render_group_go_background, fuzzy_ne_self]

/-- C3: every node render leaves the canvas transform exactly as it found
it — `render_node`, `render_group` (including the early exits of its child
loop through `RenderUntil` hits and `BackgroundFinished`) and
`render_group_impl` all restore the entry transform at exit. -/
theorem transform_round_trip (t : Tree) (n : Node) (nid : Nat) (g : Group)
    (children cs : List Node) (st : RenderState) (ly : Layers) (c : Canvas) :
    (render_node t n st ly c).c.matrix = c.matrix
    ∧ (render_group t cs st ly c).c.matrix = c.matrix
    ∧ (render_group_impl t nid g children st ly c).c.matrix = c.matrix :=
  ⟨render_node_matrix .., render_group_matrix .., render_group_impl_matrix ..⟩

/-- C9: `render_group` of a group with zero children returns `None` (not
the `Rect::new_bbox()` sentinel), and in general it returns `Some g_bbox`
exactly when the loop's accumulated bbox differs (fuzzily) from the
sentinel. -/
theorem render_group_sentinel (t : Tree) (children cs : List Node)
    (st : RenderState) (ly : Layers) (c : Canvas) (gb : Rect) :
    (children = [] → (render_group t children st ly c).bbox = none)
    ∧ ((render_group t cs st ly c).bbox = some gb ↔
        (render_group_go t cs st ly c c.matrix Rect.new_bbox).acc = gb
          ∧ Rect.fuzzy_ne gb Rect.new_bbox = true) := by
  constructor
  · intro h
    subst h
    simp [render_group, render_group_go, fuzzy_ne_self]
  · rw [render_group]
    by_cases hf : ((render_group_go t cs st ly c c.matrix Rect.new_bbox).acc).fuzzy_ne
        Rect.new_bbox = true
    · simp only [hf, if_true]
      constructor
      · intro h
        obtain rfl := Option.some.inj h
        exact ⟨rfl, hf⟩
      · intro ⟨h1, _⟩
        rw [h1]
    · simp only [hf]
      constructor
      · intro h
        simp at h
      · intro ⟨h1, h2⟩
        rw [← h1] at h2
        exact absurd h2 hf

/-- Witness for C9: rendering an empty child list returns `None`. -/
theorem render_group_sentinel_witness :
    ([] : List Node) = [] ∧ (render_group exTree [] .Ok lyW exCanvas).bbox = none :=
  ⟨rfl, (render_group_sentinel exTree [] [] .Ok lyW exCanvas ⟨0, 0, 1, 1⟩).1 rfl⟩

/-- C2: when the state after rendering the group's children is
`BackgroundFinished`, `render_group_impl` bypasses all post-processing: no
filter, clip, mask or opacity is applied (the sub-surface is released to
the pool exactly as the children left it), the sub-layer is blitted onto
the parent canvas at identity transform with `SourceOver` and full alpha
255, the canvas transform is restored, and the children's bbox is
returned. -/
theorem render_group_impl_background_finished (t : Tree) (nid : Nat) (g : Group)
    (children : List Node) (st : RenderState) (ly ly1 : Layers) (c sub0 : Canvas)
    (idx : Nat) (r : RRes)
    (hget : ly.get = (some (idx, sub0), ly1))
    (hr : render_group t children st ly1 (sub0.set_matrix c.matrix) = r)
    (hbf : r.st = .BackgroundFinished) :
    render_group_impl t nid g children st ly c
      = ⟨r.bbox, .BackgroundFinished, r.ly.release idx r.c,
         { c with
             ops := c.ops ++ [.drawSurface r.c.sid 0 0 255 .sourceOver Transform.identity],
             content := .dirty }⟩ := by
  simp only [render_group_impl, hget, hr, hbf, if_true]
  simp [Canvas.set_matrix, Canvas.draw_surface, Canvas.reset_matrix]

/-- Witness for C2: a group whose single child is the `RenderUntil`
target; the children pass flips the state and the blit happens with alpha
255 at identity, with no post-processing of the sub-surface. -/
theorem render_group_impl_background_finished_witness :
    lyW.get = (some (0, sub0W), ly1W)
    ∧ render_group exTree [exChild] (.RenderUntil 7) ly1W (sub0W.set_matrix exCanvas.matrix)
        = rBFW
    ∧ rBFW.st = .BackgroundFinished
    ∧ render_group_impl exTree 99 exGroupPlain [exChild] (.RenderUntil 7) lyW exCanvas
      = ⟨rBFW.bbox, .BackgroundFinished, rBFW.ly.release 0 rBFW.c,
         { exCanvas with
             ops := exCanvas.ops
               ++ [.drawSurface rBFW.c.sid 0 0 255 .sourceOver Transform.identity],
             content := .dirty }⟩ := by
  have h1 : lyW.get = (some (0, sub0W), ly1W) := by
    simp [lyW, Layers.get, create_subsurface, sub0W, ly1W]
  have h2 : render_group exTree [exChild] (.RenderUntil 7) ly1W
      (sub0W.set_matrix exCanvas.matrix) = rBFW := by
    simp [render_group, render_group_go, hitsTarget, exChild, Node.nid, rBFW, fuzzy_ne_self]
  exact ⟨h1, h2, rfl,
    render_group_impl_background_finished exTree 99 exGroupPlain [exChild]
      (.RenderUntil 7) lyW ly1W exCanvas sub0W 0 rBFW h1 h2 rfl⟩

/-- The composite alpha of `render_group_impl` equals the truncation
(floor) of opacity x 255, for opacities in [0,1]. -/
theorem composite_alpha_eq_floor (o : Opacity) (h0 : 0 ≤ o.value) (h1 : o.value ≤ 1) :
    composite_alpha o = Int.toNat ⌊o.value * 255⌋ := by
  unfold composite_alpha f64_as_u8 Opacity.is_default
  by_cases hd : o.value = 1
  · rw [hd]
    norm_num
    decide
  · have hdec : decide (o.value = 1) = false := by simp [hd]
    simp only [hdec, Bool.not_false, if_true]
    have hle : (⌊o.value * 255⌋ : ℤ) ≤ 255 := by
      have h255 : o.value * 255 ≤ 255 := by nlinarith
      calc ⌊o.value * 255⌋ ≤ ⌊(255 : ℚ)⌋ := Int.floor_le_floor h255
        _ = 255 := by norm_num
    have hle2 : Int.toNat ⌊o.value * 255⌋ ≤ 255 := by omega
    exact Nat.min_eq_left hle2

/-- Counterexample for C7: with group opacity 1/2 the composite blit
carries alpha 127 (truncation of 127.5), but round(0.5 x 255) = 128, so
the alpha is not `round(opacity x 255)` as claimed. -/
theorem composite_alpha_not_round_cex :
    (render_group_impl exTree 1 exGroupHalf [] .Ok lyW exCanvas).c.ops
      = [.drawSurface 1 0 0 127 .sourceOver Transform.identity]
    ∧ (127 : ℤ) ≠ round (((1 : ℚ) / 2) * 255) := by
  constructor
  · simp [render_group_impl, render_group, render_group_go, lyW, exCanvas, exTree,
      exGroupHalf, Layers.get, create_subsurface, Canvas.newRgbaPremultiplied,
      Canvas.fill, Canvas.set_matrix, Canvas.reset_matrix, Canvas.draw_surface,
      clip_mask_stage, filter_stage, clip_stage, mask_stage, composite_alpha,
      f64_as_u8, Opacity.is_default, Rect.fuzzy_ne, Rect.new_bbox]
    norm_num
    rfl
  · norm_num [round_eq]

/-- C7 (amended): in the final composite of `render_group_impl` (when the
state is not `BackgroundFinished`), the sub-layer — after the
filter/clip/mask stages — is blitted onto the parent canvas at (0,0) with
identity transform, `SourceOver`, and alpha equal to the truncation
⌊opacity x 255⌋ (Rust's `as u8` cast truncates; it does not round); the
canvas transform is restored afterwards, and the alpha is per-call, so no
opacity state persists on the canvas. -/
theorem render_group_impl_composite_alpha (t : Tree) (nid : Nat) (g : Group)
    (children : List Node) (st : RenderState) (ly ly1 : Layers) (c sub0 : Canvas)
    (idx : Nat) (r : RRes)
    (hget : ly.get = (some (idx, sub0), ly1))
    (hr : render_group t children st ly1 (sub0.set_matrix c.matrix) = r)
    (hbf : r.st ≠ .BackgroundFinished)
    (h0 : 0 ≤ g.opacity.value) (h1 : g.opacity.value ≤ 1) :
    render_group_impl t nid g children st ly c
      = ⟨r.bbox, r.st,
         r.ly.release idx (clip_mask_stage t g r.bbox c.matrix (filter_stage t g c.matrix r.c)),
         { c with
             ops := c.ops ++ [.drawSurface
               (clip_mask_stage t g r.bbox c.matrix (filter_stage t g c.matrix r.c)).sid 0 0
               (Int.toNat ⌊g.opacity.value * 255⌋) .sourceOver Transform.identity],
             content := .dirty }⟩ := by
  simp only [render_group_impl, hget, hr, if_neg hbf]
  simp [Canvas.set_matrix, Canvas.draw_surface, Canvas.reset_matrix,
    composite_alpha_eq_floor g.opacity h0 h1]

/-- Witness for C7 (amended): the opacity-1/2 group from the
counterexample satisfies the amended statement with alpha ⌊127.5⌋ = 127. -/
theorem render_group_impl_composite_alpha_witness :
    lyW.get = (some (0, sub0W), ly1W)
    ∧ render_group exTree [] .Ok ly1W (sub0W.set_matrix exCanvas.matrix) = rOkW
    ∧ rOkW.st ≠ .BackgroundFinished
    ∧ (0 : ℚ) ≤ exGroupHalf.opacity.value ∧ exGroupHalf.opacity.value ≤ 1
    ∧ render_group_impl exTree 1 exGroupHalf [] .Ok lyW exCanvas
      = ⟨rOkW.bbox, rOkW.st,
         rOkW.ly.release 0
           (clip_mask_stage exTree exGroupHalf rOkW.bbox exCanvas.matrix
             (filter_stage exTree exGroupHalf exCanvas.matrix rOkW.c)),
         { exCanvas with
             ops := exCanvas.ops ++ [.drawSurface
               (clip_mask_stage exTree exGroupHalf rOkW.bbox exCanvas.matrix
                 (filter_stage exTree exGroupHalf exCanvas.matrix rOkW.c)).sid 0 0
               (Int.toNat ⌊exGroupHalf.opacity.value * 255⌋) .sourceOver Transform.identity],
             content := .dirty }⟩ := by
  have h1 : lyW.get = (some (0, sub0W), ly1W) := by
    simp [lyW, Layers.get, create_subsurface, sub0W, ly1W]
  have h2 : render_group exTree [] .Ok ly1W (sub0W.set_matrix exCanvas.matrix) = rOkW := by
    simp [render_group, render_group_go, rOkW, fuzzy_ne_self]
  have h3 : rOkW.st ≠ RenderState.BackgroundFinished := by
    simp [rOkW]
  refine ⟨h1, h2, h3, by norm_num [exGroupHalf], by norm_num [exGroupHalf], ?_⟩
  exact render_group_impl_composite_alpha exTree 1 exGroupHalf [] .Ok lyW ly1W exCanvas
    sub0W 0 rOkW h1 h2 h3 (by norm_num [exGroupHalf]) (by norm_num [exGroupHalf])

/-- C8: when the children produced no bbox (and outside the background
short-circuit), `render_group_impl` skips the clip and mask stages
entirely — the sub-surface reaches the composite through `filter_stage`
alone, `clip_mask_stage` with a `none` bbox being the identity — while the
filter stage still applies the filter whenever the group's reference
resolves to a `Filter` definition. -/
theorem render_group_impl_none_bbox (t : Tree) (nid : Nat) (g : Group)
    (children : List Node) (st : RenderState) (ly ly1 : Layers) (c sub0 : Canvas)
    (idx : Nat) (r : RRes)
    (hget : ly.get = (some (idx, sub0), ly1))
    (hr : render_group t children st ly1 (sub0.set_matrix c.matrix) = r)
    (hbb : r.bbox = none)
    (hbf : r.st ≠ .BackgroundFinished) :
    render_group_impl t nid g children st ly c
      = ⟨none, r.st, r.ly.release idx (filter_stage t g c.matrix r.c),
         { c with
             ops := c.ops ++ [.drawSurface (filter_stage t g c.matrix r.c).sid 0 0
               (composite_alpha g.opacity) .sourceOver Transform.identity],
             content := .dirty }⟩
    ∧ (∀ id fn, g.filter = some id → t.defsFilter id = some fn →
        (filter_stage t g c.matrix r.c).ops = r.c.ops ++ [.applyFilter id c.matrix])
    ∧ (∀ sub : Canvas, clip_mask_stage t g none c.matrix sub = sub) := by
  refine ⟨?_, ?_, fun sub => rfl⟩
  · simp only [render_group_impl, hget, hr, if_neg hbf, hbb]
    simp [clip_mask_stage, Canvas.set_matrix, Canvas.draw_surface, Canvas.reset_matrix]
  · intro id fn hid hfn
    simp [filter_stage, hid, hfn, Canvas.apply_filter]

/-- Witness for C8: a group referencing filter "f1" with no children (so
no bbox): the clip/mask stages are identity and the filter event fires. -/
theorem render_group_impl_none_bbox_witness :
    lyW.get = (some (0, sub0W), ly1W)
    ∧ render_group exTreeF [] .Ok ly1W (sub0W.set_matrix exCanvas.matrix) = rOkW
    ∧ rOkW.bbox = none
    ∧ rOkW.st ≠ .BackgroundFinished
    ∧ exGroupF.filter = some "f1"
    ∧ exTreeF.defsFilter "f1" = some exFilterNode
    ∧ (filter_stage exTreeF exGroupF exCanvas.matrix rOkW.c).ops
        = rOkW.c.ops ++ [.applyFilter "f1" exCanvas.matrix] := by
  have h1 : lyW.get = (some (0, sub0W), ly1W) := by
    simp [lyW, Layers.get, create_subsurface, sub0W, ly1W]
  have h2 : render_group exTreeF [] .Ok ly1W (sub0W.set_matrix exCanvas.matrix) = rOkW := by
    simp [render_group, render_group_go, rOkW, fuzzy_ne_self]
  have h3 : rOkW.st ≠ RenderState.BackgroundFinished := by
    simp [rOkW]
  have h4 : exTreeF.defsFilter "f1" = some exFilterNode := by
    simp [exTreeF, Tree.defsFilter, Tree.defs_by_id, exFilterNode, Node.kind]
  refine ⟨h1, h2, rfl, h3, rfl, h4, ?_⟩
  exact (render_group_impl_none_bbox exTreeF 1 exGroupF [] .Ok lyW ly1W exCanvas sub0W 0
    rOkW h1 h2 rfl h3).2.1 "f1" exFilterNode rfl h4

/-- Counterexample for C5: evaluating a clip-path that carries the nested
reference "inner". The caller's context receives TWO `DestOut` paints —
the nested clip composites its mask (slot 1) directly onto the caller —
while the private mask layer of the outer clip (pool slot 0) holds only
its own black fill and `Clear` setup, no trace of the nested clip; so the
nested clip is not applied onto the private clip-layer context as
claimed. -/
theorem clip_nested_target_cex :
    clipNestedRun.2.ops
      = [.setSource (.layer 1), .setOperator .destOut,
         .paint .destOut (.layer 1) Transform.identity, .setOperator .over, .resetSource,
         .setSource (.layer 0), .setOperator .destOut,
         .paint .destOut (.layer 0) Transform.identity, .setOperator .over, .resetSource]
    ∧ (clipNestedRun.1.d.getD 0 ⟨[]⟩).ops
      = [.setSource (.rgba 0 0 0 1), .paint .over (.rgba 0 0 0 1) Transform.identity,
         .setOperator .clear] := by
  constructor <;>
    simp [clipNestedRun, cclip, cclip_children, cclip_setup, cclip_compose,
      treeNested, nodeOuter, cpOuter, cpInner, nodeInner, bboxUnit, clyEmpty,
      CCtx.new, CLayers.get, CLayers.release, Tree.defsClip, Tree.defs_by_id,
      CCtx.set_matrix, CCtx.transform, CCtx.set_operator, CCtx.set_source,
      CCtx.reset_source, CCtx.paint, CCtx.draw_path, Node.children, Node.kind,
      Transform.mul, Transform.identity]

/-- C5 (amended): when the clip-path definition carries its own nested
`clip_path` reference that resolves via `defs_by_id` to a `ClipPath`,
`clip` recursively applies the nested clip onto the CALLER's context `cr`
— not onto the private clip-layer context — immediately before
compositing its own mask layer onto `cr` with `DestOut`; the private mask
layer receives only the clip-path's own children (the net effect on the
target is still the intersection of the two clips). -/
theorem clip_nested_on_caller (fuel : Nat) (t : Tree) (node n2 : Node)
    (cp cp2 : ClipPathDef) (bbox : Rect) (ly ly1 ly2 ly3 : CLayers)
    (cr cr1 c6 : CCtx) (idx : Nat) (id : String)
    (hid : cp.clip_path = some id)
    (hres : t.defsClip id = some (n2, cp2))
    (hget : ly.get = (some idx, ly1))
    (hch : cclip_children fuel t node.children bbox ly1
        (cclip_setup cp bbox cr.matrix) (cclip_setup cp bbox cr.matrix).matrix = (ly2, c6))
    (hrec : cclip fuel t n2 cp2 bbox ly2 cr = (ly3, cr1)) :
    cclip (fuel + 1) t node cp bbox ly cr
      = (ly3.release idx ⟨c6.ops⟩, cclip_compose cr1 idx) := by
  simp only [cclip, hget, hch, hid, hres, hrec]

/-- Witness for C5 (amended): the concrete nested-reference fixture. -/
theorem clip_nested_on_caller_witness :
    cpOuter.clip_path = some "inner"
    ∧ treeNested.defsClip "inner" = some (nodeInner, cpInner)
    ∧ clyEmpty.get = (some 0, cly1W)
    ∧ cclip_children 1 treeNested nodeOuter.children bboxUnit cly1W
        (cclip_setup cpOuter bboxUnit (CCtx.new).matrix)
        (cclip_setup cpOuter bboxUnit (CCtx.new).matrix).matrix
        = (cly1W, cclip_setup cpOuter bboxUnit (CCtx.new).matrix)
    ∧ cclip 1 treeNested nodeInner cpInner bboxUnit cly1W CCtx.new = (cly3W, cr1W)
    ∧ cclip 2 treeNested nodeOuter cpOuter bboxUnit clyEmpty CCtx.new
        = (cly3W.release 0 ⟨(cclip_setup cpOuter bboxUnit (CCtx.new).matrix).ops⟩,
           cclip_compose cr1W 0) := by
  have hid : cpOuter.clip_path = some "inner" := rfl
  have hres : treeNested.defsClip "inner" = some (nodeInner, cpInner) := by
    simp [treeNested, Tree.defsClip, Tree.defs_by_id, nodeInner, Node.kind]
  have hget : clyEmpty.get = (some 0, cly1W) := by
    simp [clyEmpty, CLayers.get, cly1W]
  have hch : cclip_children 1 treeNested nodeOuter.children bboxUnit cly1W
      (cclip_setup cpOuter bboxUnit (CCtx.new).matrix)
      (cclip_setup cpOuter bboxUnit (CCtx.new).matrix).matrix
      = (cly1W, cclip_setup cpOuter bboxUnit (CCtx.new).matrix) := by
    simp [cclip_children, nodeOuter, Node.children]
  have hrec : cclip 1 treeNested nodeInner cpInner bboxUnit cly1W CCtx.new
      = (cly3W, cr1W) := by
    simp [cclip, cclip_children, cclip_setup, cclip_compose, treeNested, nodeInner,
      cpInner, bboxUnit, cly1W, cly3W, cr1W, maskOpsW, CCtx.new, CLayers.get,
      CLayers.release, Tree.defsClip, Tree.defs_by_id, CCtx.set_matrix, CCtx.transform,
      CCtx.set_operator, CCtx.set_source, CCtx.reset_source, CCtx.paint,
      Node.children, Node.kind, Transform.mul, Transform.identity]
  exact ⟨hid, hres, hget, hch, hrec,
    clip_nested_on_caller 1 treeNested nodeOuter nodeInner cpOuter cpInner bboxUnit
      clyEmpty cly1W cly1W cly3W CCtx.new cr1W
      (cclip_setup cpOuter bboxUnit (CCtx.new).matrix) 0 "inner"
      hid hres hget hch hrec⟩

/-- Counterexample for C6: in the concrete `clip_group` run the events
issued on the outer clip layer's context are `set_operator(Xor)`,
`set_source(L2)`, `set_operator(DestOut)` and then a SINGLE paint, which
happens with `DestOut`; there is no paint with `Xor`, so the claimed
two-paint Xor-then-DestOut sequence does not happen. -/
theorem clip_group_blit_cex :
    clipGroupRun.2.ops
      = [.setOperator .xorOp, .setSource (.layer 0), .setOperator .destOut,
         .paint .destOut (.layer 0) Transform.identity]
    ∧ (clipGroupRun.2.ops.countP fun o => match o with
        | .paint .xorOp _ _ => true
        | _ => false) = 0
    ∧ (clipGroupRun.2.ops.countP fun o => match o with
        | .paint _ _ _ => true
        | _ => false) = 1 := by
  have h : clipGroupRun.2.ops
      = [.setOperator .xorOp, .setSource (.layer 0), .setOperator .destOut,
         .paint .destOut (.layer 0) Transform.identity] := by
    simp [clipGroupRun, cclip_group, cclip_group_blit, cclip, cclip_children,
      cclip_setup, cclip_compose, draw_group_child, treeG, groupNode32, groupWithClip,
      nodeCpG, cpG, pathChild31, bboxUnit, clyEmpty, CCtx.new, CLayers.get,
      CLayers.release, Tree.defsClip, Tree.defs_by_id, CCtx.set_matrix, CCtx.transform,
      CCtx.set_operator, CCtx.set_source, CCtx.reset_source, CCtx.paint,
      CCtx.draw_path, Node.children, Node.kind, Node.first_child, Node.tf, Node.nid,
      Transform.mul, Transform.identity]
  refine ⟨h, ?_, ?_⟩ <;> rw [h] <;> rfl

/-- C6 (amended): the `clip_group` blit sets the operator to `Xor`, then
the source to the second layer `L2`, then the operator to `DestOut`, and
performs ONE paint at identity transform; that single `DestOut` paint is
what subtracts the clipped child's coverage from the outer black mask
(the `Xor` setting is immediately overwritten and never paints). -/
theorem clip_group_blit_spec (fuel : Nat) (t : Tree) (node clipNode : Node)
    (g : Group) (cp : ClipPathDef) (bbox : Rect) (ly ly1 ly2 : CLayers)
    (cr c4 : CCtx) (idx2 : Nat) (id : String)
    (hid : g.clip_path = some id)
    (hres : t.defsClip id = some (clipNode, cp))
    (hget : ly.get = (some idx2, ly1))
    (hrec : cclip fuel t clipNode cp bbox ly1
        (draw_group_child node ((((CCtx.new).set_source (.rgba 0 0 0 0)).paint).set_matrix
          cr.matrix)) = (ly2, c4)) :
    cclip_group fuel t node g bbox ly cr
      = (ly2.release idx2 ⟨c4.ops⟩, cclip_group_blit cr idx2)
    ∧ cclip_group_blit cr idx2
      = { cr with
            matrix := Transform.identity,
            operator := .destOut,
            source := .layer idx2,
            ops := cr.ops ++ [.setOperator .xorOp, .setSource (.layer idx2),
              .setOperator .destOut, .paint .destOut (.layer idx2) Transform.identity] } := by
  constructor
  · simp only [cclip_group, hid, hres, hget, hrec]
  · simp [cclip_group_blit, CCtx.set_matrix, CCtx.set_operator, CCtx.set_source,
      CCtx.paint]

/-- Witness for C6 (amended): the concrete clip-group fixture. -/
theorem clip_group_blit_spec_witness :
    groupWithClip.clip_path = some "gclip"
    ∧ treeG.defsClip "gclip" = some (nodeCpG, cpG)
    ∧ clyEmpty.get = (some 0, cly1W)
    ∧ cclip 1 treeG nodeCpG cpG bboxUnit cly1W c3W = (cly3W, c4W)
    ∧ cclip_group 1 treeG groupNode32 groupWithClip bboxUnit clyEmpty CCtx.new
        = (cly3W.release 0 ⟨c4W.ops⟩, cclip_group_blit CCtx.new 0) := by
  have hid : groupWithClip.clip_path = some "gclip" := rfl
  have hres : treeG.defsClip "gclip" = some (nodeCpG, cpG) := by
    simp [treeG, Tree.defsClip, Tree.defs_by_id, nodeCpG, Node.kind]
  have hget : clyEmpty.get = (some 0, cly1W) := by
    simp [clyEmpty, CLayers.get, cly1W]
  have hrec : cclip 1 treeG nodeCpG cpG bboxUnit cly1W c3W = (cly3W, c4W) := by
    simp [cclip, cclip_children, cclip_setup, cclip_compose, treeG, nodeCpG, cpG,
      bboxUnit, cly1W, cly3W, c3W, c4W, maskOpsW, CCtx.new, CLayers.get,
      CLayers.release, Tree.defsClip, Tree.defs_by_id, CCtx.set_matrix, CCtx.transform,
      CCtx.set_operator, CCtx.set_source, CCtx.reset_source, CCtx.paint,
      Node.children, Node.kind, Transform.mul, Transform.identity]
  have hmain := clip_group_blit_spec 1 treeG groupNode32 nodeCpG groupWithClip cpG
    bboxUnit clyEmpty cly1W cly3W CCtx.new c4W 0 "gclip" hid hres hget (by
      simpa [c3W] using hrec)
  exact ⟨hid, hres, hget, hrec, hmain.1⟩

/-- C10: a `Group` child of a clip-path node with no `clip_path` reference
of its own — or one that does not resolve via `defs_by_id` to a
`ClipPath` — contributes nothing to the clip mask: `clip_group` returns
the pool and the context untouched, so none of that group's descendants
are drawn; and inside a nested-clip group only the first child is ever
drawn (later siblings are ignored), and it is drawn only when it is a
`Path`. -/
theorem clip_group_no_contribution (fuel : Nat) (t : Tree) (node : Node)
    (g : Group) (bbox : Rect) (ly : CLayers) (cr : CCtx) (nid0 : Nat)
    (kind0 : NodeKind) (tf0 : Transform) (child : Node) (rest : List Node) :
    (g.clip_path = none → cclip_group fuel t node g bbox ly cr = (ly, cr))
    ∧ (∀ id, g.clip_path = some id → t.defsClip id = none →
        cclip_group fuel t node g bbox ly cr = (ly, cr))
    ∧ draw_group_child (.mk nid0 kind0 tf0 (child :: rest)) cr
        = draw_group_child (.mk nid0 kind0 tf0 [child]) cr
    ∧ (∀ pb, child.kind = .path pb →
        draw_group_child (.mk nid0 kind0 tf0 (child :: rest)) cr
          = (cr.transform child.tf).draw_path child.nid)
    ∧ ((∀ pb, child.kind ≠ .path pb) →
        (draw_group_child (.mk nid0 kind0 tf0 (child :: rest)) cr).ops = cr.ops) := by
  refine ⟨?_, ?_, ?_, ?_, ?_⟩
  · intro h
    simp [cclip_group, h]
  · intro id h hres
    simp [cclip_group, h, hres]
  · simp [draw_group_child, Node.first_child, Node.children]
  · intro pb hk
    simp [draw_group_child, Node.first_child, Node.children, hk]
  · intro hk
    cases hck : child.kind
    case path pb => exact absurd hck (hk pb)
    all_goals
      simp [draw_group_child, Node.first_child, Node.children, hck, CCtx.transform]

/-- Witness for C10: a reference-free group leaves pool and context
untouched, and a nested-clip group draws exactly its first path child. -/
theorem clip_group_no_contribution_witness :
    exGroupPlain.clip_path = none
    ∧ cclip_group 1 exTree groupNode32 exGroupPlain bboxUnit clyEmpty CCtx.new
        = (clyEmpty, CCtx.new)
    ∧ pathChild31.kind = .path none
    ∧ draw_group_child (.mk 50 .svg Transform.identity [pathChild31, pathChild31])
        CCtx.new
        = ((CCtx.new).transform pathChild31.tf).draw_path pathChild31.nid := by
  refine ⟨rfl, ?_, rfl, ?_⟩
  · exact (clip_group_no_contribution 1 exTree groupNode32 exGroupPlain bboxUnit clyEmpty
      CCtx.new 50 .svg Transform.identity pathChild31 []).1 rfl
  · exact (clip_group_no_contribution 1 exTree groupNode32 exGroupPlain bboxUnit clyEmpty
      CCtx.new 50 .svg Transform.identity pathChild31 [pathChild31]).2.2.2.1 none rfl

end Resvg
